import Mathlib

/-
Verification of the zerops-rag-starter pipeline.

Shallow embedding of the two source files:
  - src/api/main.py      (upload_document, search, status)
  - src/processor/processor.py (process_document, the NATS subscriber)

The external stores are modelled as explicit state:
  - Blob Store (S3):        association list  key -> decoded document content
  - Metadata Store (PG):    association list  id -> Row  (table `documents`)
  - Vector Index (Qdrant):  list of Points, upsert keyed by point id
  - Result Cache (Redis):   association list  key -> (value, expiry time)
  - Queue (NATS):           list of pending events

Floats are modelled as rationals.  The external embedding model
(`model.encode`) and UTF-8 decoding are treated as pure functions: the
embedding is a parameter `encode : String -> List Rat`, and blob contents
are carried in decoded form.  Faults in external calls (a store raising an
exception) are explicit boolean fault flags; a raised exception aborts the
Python function at that point, keeping all writes already performed.
-/

namespace RagStarter

/-- Payload attached to a point in the Vector Index (processor.py lines 62-66). -/
structure Payload where
  text : String
  filename : String
  doc_id : String
deriving Repr, DecidableEq

/-- One entry of the Vector Index: id, embedding vector, payload. -/
structure Point where
  id : String
  vector : List Rat
  payload : Payload
deriving Repr, DecidableEq

/-- A row of the `documents` table (main.py lines 64-72): `processed`
defaults to FALSE and `text_preview` to NULL on insert. -/
structure Row where
  filename : String
  processed : Bool
  text_preview : Option String
deriving Repr, DecidableEq

/-- One nearest-neighbor hit returned by the Vector Index. -/
structure Hit where
  id : String
  score : Rat
  payload : Option Payload
deriving Repr, DecidableEq

/-- The value returned by `search` and stored in the Result Cache
(main.py lines 124-127). -/
structure SearchResult where
  query : String
  results : List Hit
deriving Repr, DecidableEq

/-- A queue message on `document.process` (main.py lines 94-97). -/
structure Event where
  id : String
  filename : String
deriving Repr, DecidableEq

/-- A Result Cache entry: the stored value plus its absolute expiry time
(`setex key 300 value` at time t yields expiry t + 300). -/
structure CacheEntry where
  value : SearchResult
  expiry : Nat
deriving Repr, DecidableEq

/-- The combined state of all external stores. -/
structure SystemState where
  blobs : List (String × String)
  documents : List (String × Row)
  points : List Point
  queue : List Event
  cache : List (String × CacheEntry)
deriving Repr, DecidableEq

/-- The empty initial state: no blobs, rows, points, messages or cache
entries. -/
def initState : SystemState := ⟨[], [], [], [], []⟩

/-- Lookup in an association list (first binding wins). -/
def assocGet (k : String) : List (String × α) → Option α
  | [] => none
  | (k', v) :: rest => if k' = k then some v else assocGet k rest

/-- Overwrite-or-append in an association list: models S3 `put_object`
(overwrites an existing key) and Redis `setex`. -/
def assocSet (k : String) (v : α) : List (String × α) → List (String × α)
  | [] => [(k, v)]
  | (k', v') :: rest =>
      if k' = k then (k, v) :: rest else (k', v') :: assocSet k v rest

/-- `INSERT INTO documents (id, filename) VALUES ($1, $2)` with `id` the
primary key: fails (returns `none`) when a row for `id` already exists;
otherwise adds a row with `processed = FALSE`, `text_preview = NULL`. -/
def insertRow (id filename : String) (docs : List (String × Row)) :
    Option (List (String × Row)) :=
  match assocGet id docs with
  | some _ => none
  | none => some ((id, ⟨filename, false, none⟩) :: docs)

/-- `UPDATE documents SET ... WHERE id = $2`: modifies the row for `id`
when it exists, and is a silent no-op (0 rows updated) when it does not. -/
def updateRow (id : String) (f : Row → Row) : List (String × Row) → List (String × Row)
  | [] => []
  | (k, r) :: rest =>
      if k = id then (k, f r) :: rest else (k, r) :: updateRow id f rest

/-- Qdrant `PUT /collections/documents/points` semantics: upsert keyed by
the point id — the existing entry with the same id is replaced (last write
wins), otherwise the point is appended. -/
def upsertPoint (p : Point) : List Point → List Point
  | [] => [p]
  | q :: rest => if q.id = p.id then p :: rest else q :: upsertPoint p rest

/-- Number of Vector Index entries carrying a given id. -/
def countById (id : String) (ps : List Point) : Nat :=
  (ps.filter fun p => p.id = id).length

/-- Errors raised by external calls (exceptions in the Python code). -/
inductive Err where
  | blobWriteFailed
  | dbInsertFailed
  | pkViolation
  | blobNotFound
  | qdrantUnreachable
  | dbUpdateFailed
  | cacheUnreachable
deriving Repr, DecidableEq

/-- Fault flags for one call to the Producer (`blobFault`: S3 `put_object`
raises; `dbFault`: the `INSERT` raises for a transient reason). -/
structure UploadFaults where
  blobFault : Bool
  dbFault : Bool
deriving Repr, DecidableEq

/-- The fault-free instantiation. -/
def noUploadFaults : UploadFaults := ⟨false, false⟩

/-- The response of `upload_document`: `{id, status: "queued"}`. -/
structure UploadResp where
  id : String
  status : String
deriving Repr, DecidableEq

/-- Blob key computed by the Producer (main.py line 82):
`f"documents/\x7bdoc_id\x7d.pdf"`. -/
def producerBlobKey (doc_id : String) : String :=
  "documents/" ++ doc_id ++ ".pdf"

/-- Blob key computed by the Consumer (processor.py line 41):
`f"documents/\x7bdoc_id\x7d.pdf"`. -/
def consumerBlobKey (doc_id : String) : String :=
  "documents/" ++ doc_id ++ ".pdf"

/-- `upload_document` (main.py lines 74-99).  The uuid generated at line 77
is passed in as `doc_id`.  Order of effects: S3 `put_object`, then the
`INSERT`, then `nc.publish`; an exception aborts the function at that point
(earlier writes persist, the HTTP caller gets an error), the returned state
reflects exactly the writes performed before the failure. -/
def upload_document (flt : UploadFaults) (doc_id filename content : String)
    (st : SystemState) : SystemState × Except Err UploadResp :=
  if flt.blobFault then
    (st, .error .blobWriteFailed)
  else
    let st1 := { st with blobs := assocSet (producerBlobKey doc_id) content st.blobs }
    if flt.dbFault then
      (st1, .error .dbInsertFailed)
    else
      match insertRow doc_id filename st1.documents with
      | none => (st1, .error .pkViolation)
      | some docs =>
          let st2 := { st1 with documents := docs }
          let st3 := { st2 with queue := st2.queue ++ [⟨doc_id, filename⟩] }
          (st3, .ok ⟨doc_id, "queued"⟩)

/-- Fault flags for one Consumer run (`qdrantFault`: the Qdrant `PUT`
raises; `dbFault`: the `UPDATE` raises). -/
structure ProcFaults where
  qdrantFault : Bool
  dbFault : Bool
deriving Repr, DecidableEq

/-- The fault-free instantiation. -/
def noProcFaults : ProcFaults := ⟨false, false⟩

/-- Text extraction (processor.py line 46): the decoded content truncated
to its first 500 characters. -/
def extractText (content : String) : String := content.take 500

/-- `process_document` (processor.py lines 22-81), one delivered event.
Steps, in program order: fetch the blob (raises `blobNotFound` if the key
is absent), extract text, compute the embedding (the external model is the
pure function `encode`), upsert the point into the Vector Index keyed by
the document id, then `UPDATE` the row to `processed = true` with
`text_preview = text[:200]`.  An exception aborts the function at that
point; the returned state keeps all writes already performed. -/
def process_document (encode : String → List Rat) (flt : ProcFaults)
    (ev : Event) (st : SystemState) : SystemState × Option Err :=
  match assocGet (consumerBlobKey ev.id) st.blobs with
  | none => (st, some .blobNotFound)
  | some content =>
      let text := extractText content
      let embedding := encode text
      if flt.qdrantFault then
        (st, some .qdrantUnreachable)
      else
        let st1 := { st with
          points := upsertPoint ⟨ev.id, embedding, ⟨text, ev.filename, ev.id⟩⟩ st.points }
        if flt.dbFault then
          (st1, some .dbUpdateFailed)
        else
          let markDone : Row → Row := fun r =>
            { r with processed := true, text_preview := some (text.take 200) }
          ({ st1 with documents := updateRow ev.id markDone st1.documents }, none)

/-- Delivery of the next queued message to the Consumer (processor.py
lines 83-92): the subscription is a plain core-NATS `nc.subscribe` with no
ack/nack — the message is consumed before the callback runs and is never
redelivered, whether or not `process_document` raises. -/
def consumeNext (encode : String → List Rat) (flt : ProcFaults)
    (st : SystemState) : SystemState × Option Err :=
  match st.queue with
  | [] => (st, none)
  | ev :: rest => process_document encode flt ev { st with queue := rest }

/-- The Result Cache key (main.py line 104): the literal string
`"search:"` followed by the raw, unnormalized query. -/
def cacheKey (query : String) : String := "search:" ++ query

/-- `redis_client.get` at time `t`: a value set with `setex _ 300 _` is
visible while `t` is strictly before its expiry.  (Stored values are
always nonempty JSON, so Python truthiness of `cached` coincides with
presence.) -/
def cacheGet (t : Nat) (key : String) (cache : List (String × CacheEntry)) :
    Option SearchResult :=
  match assocGet key cache with
  | none => none
  | some e => if t < e.expiry then some e.value else none

/-- Fault flags for the Result Cache during one `search` call
(`getFault`: `redis_client.get` raises; `setFault`: `redis_client.setex`
raises). -/
structure CacheFaults where
  getFault : Bool
  setFault : Bool
deriving Repr, DecidableEq

/-- The fault-free instantiation. -/
def noCacheFaults : CacheFaults := ⟨false, false⟩

/-- The body sent to Qdrant `POST .../points/search` (main.py lines
117-121). -/
structure KnnRequest where
  vector : List Rat
  limit : Nat
  with_payload : Bool
deriving Repr, DecidableEq

/-- The constant placeholder query vector `[0.1] * 384` (main.py line 118). -/
def dummyVector : List Rat := List.replicate 384 (1 / 10)

/-- What one `search` call produced: the returned value, the Result Cache
afterwards, and the nearest-neighbor request issued to the Vector Index
(`none` when the index was not contacted). -/
structure SearchOutcome where
  result : SearchResult
  newCache : List (String × CacheEntry)
  indexRequest : Option KnnRequest
deriving Repr, DecidableEq

/-- `search` (main.py lines 101-132) at time `t`.  `resp req` is the
`"result"` field of the Qdrant response body for request `req` (`none`
when the body has no such field, e.g. an error response); the code reads
it with `.get("result", [])`.  There is no try/except around the Redis
calls: a cache fault on the get or on the setex raises out of `search`. -/
def search (flt : CacheFaults) (t : Nat) (query : String)
    (resp : KnnRequest → Option (List Hit))
    (cache : List (String × CacheEntry)) : Except Err SearchOutcome :=
  let key := cacheKey query
  if flt.getFault then
    .error .cacheUnreachable
  else
    match cacheGet t key cache with
    | some cached => .ok ⟨cached, cache, none⟩
    | none =>
        let req : KnnRequest := ⟨dummyVector, 3, true⟩
        let result : SearchResult := ⟨query, (resp req).getD []⟩
        if flt.setFault then
          .error .cacheUnreachable
        else
          .ok ⟨result, assocSet key ⟨result, t + 300⟩ cache, some req⟩

/-- Which of the five dependency probes fail during one `status` call.
`natsConnected` models `nc and nc.is_connected`; each other flag is
whether that probe's call raises. -/
structure StatusFaults where
  natsConnected : Bool
  pgFault : Bool
  qdrantFault : Bool
  s3Fault : Bool
  redisFault : Bool
deriving Repr, DecidableEq

/-- `status` (main.py lines 146-187): five probes, each in its own bare
try/except (the NATS check is a plain attribute read), each writing its
own entry of `services`. -/
def status (f : StatusFaults) : List (String × String) :=
  [("nats", if f.natsConnected then "connected" else "disconnected"),
   ("postgresql", if f.pgFault then "unhealthy" else "healthy"),
   ("qdrant", if f.qdrantFault then "unhealthy" else "healthy"),
   ("storage", if f.s3Fault then "unhealthy" else "healthy"),
   ("cache", if f.redisFault then "unhealthy" else "healthy")]

/-- One externally triggered operation against the system: a Producer call
(with its fresh uuid, file and fault flags) or a Consumer run on a
delivered event.  Deliveries carry an arbitrary event to model
at-least-once redelivery by the queue. -/
inductive Op where
  | upload (flt : UploadFaults) (doc_id filename content : String)
  | deliver (flt : ProcFaults) (ev : Event)
deriving Repr, DecidableEq

/-- Effect of one operation on the stores. -/
def execOp (encode : String → List Rat) (op : Op) (st : SystemState) : SystemState :=
  match op with
  | .upload flt doc_id filename content =>
      (upload_document flt doc_id filename content st).1
  | .deliver flt ev => (process_document encode flt ev st).1

/-- Effect of a sequence of operations, oldest first. -/
def execOps (encode : String → List Rat) (ops : List Op) (st : SystemState) :
    SystemState :=
  ops.foldl (fun s op => execOp encode op s) st

/-- The `processed` flag of the row for `id` (`false` when no row exists). -/
def rowProcessed (id : String) (st : SystemState) : Bool :=
  match assocGet id st.documents with
  | some r => r.processed
  | none => false

/-- The Vector Index holds an entry for `id`. -/
def hasPoint (id : String) (st : SystemState) : Prop :=
  ∃ p ∈ st.points, p.id = id

/-- Every `Processed` row has a vector in the index under the same id. -/
def processedImpliesIndexed (st : SystemState) : Prop :=
  ∀ id, rowProcessed id st = true → hasPoint id st

/-- A key just set is found, with the value just written. -/
lemma assocGet_assocSet_self (k : String) (v : α) (l : List (String × α)) :
    assocGet k (assocSet k v l) = some v := by
  induction l with
  | nil => simp [assocGet, assocSet]
  | cons kv rest ih =>
      obtain ⟨k', v'⟩ := kv
      by_cases h : k' = k
      · simp [assocGet, assocSet, h]
      · simp [assocGet, assocSet, h, ih]

/-- Setting one key does not change what other keys map to. -/
lemma assocGet_assocSet_ne (k k' : String) (v : α) (l : List (String × α))
    (h : k' ≠ k) : assocGet k' (assocSet k v l) = assocGet k' l := by
  induction l with
  | nil => simp [assocGet, assocSet, Ne.symm h]
  | cons kv rest ih =>
      obtain ⟨k₀, v₀⟩ := kv
      by_cases h₀ : k₀ = k
      · subst h₀
        simp [assocGet, assocSet, Ne.symm h]
      · simp only [assocSet, if_neg h₀]
        by_cases h₁ : k₀ = k'
        · simp [assocGet, h₁]
        · simp [assocGet, h₁, ih]

/-- Upserting the same point twice is the same as upserting it once. -/
lemma upsertPoint_idem (p : Point) (l : List Point) :
    upsertPoint p (upsertPoint p l) = upsertPoint p l := by
  induction l with
  | nil => simp [upsertPoint]
  | cons q rest ih =>
      by_cases h : q.id = p.id
      · simp [upsertPoint, h]
      · simp [upsertPoint, h, ih]

/-- If the index held at most one entry for `p.id`, it holds exactly one
after the upsert. -/
lemma countById_upsert_of_le (p : Point) (l : List Point)
    (h : countById p.id l ≤ 1) : countById p.id (upsertPoint p l) = 1 := by
  induction l with
  | nil => simp [countById, upsertPoint]
  | cons q rest ih =>
      by_cases hq : q.id = p.id
      · have hrest : countById p.id rest = 0 := by
          simp [countById, List.filter_cons, hq] at h
          simpa [countById] using h
        simp [upsertPoint, hq, countById, List.filter_cons, hrest]
        simpa [countById, List.filter_eq_nil_iff] using hrest
      · have hrest : countById p.id rest ≤ 1 := by
          simpa [countById, List.filter_cons, hq] using h
        simp [upsertPoint, hq, countById, List.filter_cons, ih hrest]
        exact ih hrest

/-- The upserted id is present afterwards. -/
lemma exists_upsert_self (p : Point) (l : List Point) :
    ∃ q ∈ upsertPoint p l, q.id = p.id := by
  induction l with
  | nil => exact ⟨p, by simp [upsertPoint]⟩
  | cons q rest ih =>
      by_cases h : q.id = p.id
      · exact ⟨p, by simp [upsertPoint, h]⟩
      · obtain ⟨w, hw, hwid⟩ := ih
        exact ⟨w, by simp [upsertPoint, h, hw], hwid⟩

/-- Upserting never removes the last entry of any id. -/
lemma exists_upsert_mono (p : Point) (l : List Point) (i : String)
    (h : ∃ q ∈ l, q.id = i) : ∃ q ∈ upsertPoint p l, q.id = i := by
  induction l with
  | nil => simp at h
  | cons q rest ih =>
      obtain ⟨w, hw, hwid⟩ := h
      by_cases hq : q.id = p.id
      · rcases List.mem_cons.mp hw with h₁ | h₁
        · subst h₁
          exact ⟨p, by simp [upsertPoint, hq], by rw [← hq, hwid]⟩
        · exact ⟨w, by simp [upsertPoint, hq, h₁], hwid⟩
      · rcases List.mem_cons.mp hw with h₁ | h₁
        · subst h₁
          exact ⟨w, by simp [upsertPoint, hq], hwid⟩
        · obtain ⟨w', hw', hwid'⟩ := ih ⟨w, h₁, hwid⟩
          exact ⟨w', by simp [upsertPoint, hq, hw'], hwid'⟩

/-- Updating with an idempotent row function is idempotent. -/
lemma updateRow_idem (id : String) (f : Row → Row)
    (hf : ∀ r, f (f r) = f r) (l : List (String × Row)) :
    updateRow id f (updateRow id f l) = updateRow id f l := by
  induction l with
  | nil => rfl
  | cons kr rest ih =>
      obtain ⟨k, r⟩ := kr
      by_cases h : k = id
      · simp [updateRow, h, hf]
      · simp [updateRow, h, ih]

/-- The updated row, after the update. -/
lemma assocGet_updateRow_self (id : String) (f : Row → Row)
    (l : List (String × Row)) :
    assocGet id (updateRow id f l) = (assocGet id l).map f := by
  induction l with
  | nil => simp [assocGet, updateRow]
  | cons kr rest ih =>
      obtain ⟨k, r⟩ := kr
      by_cases h : k = id
      · simp [assocGet, updateRow, h]
      · simp [assocGet, updateRow, h, ih]

/-- Other rows are untouched by the update. -/
lemma assocGet_updateRow_ne (d id : String) (f : Row → Row)
    (l : List (String × Row)) (h : d ≠ id) :
    assocGet d (updateRow id f l) = assocGet d l := by
  induction l with
  | nil => rfl
  | cons kr rest ih =>
      obtain ⟨k, r⟩ := kr
      by_cases h₀ : k = id
      · subst h₀
        simp [assocGet, updateRow, Ne.symm h]
      · simp only [updateRow, if_neg h₀]
        by_cases h₁ : k = d
        · simp [assocGet, h₁]
        · simp [assocGet, h₁, ih]

/-- The state produced by a fault-free Consumer run when the blob is
present: the point is upserted and the row marked processed; blobs, queue
and cache are untouched. -/
lemma process_document_success (encode : String → List Rat) (ev : Event)
    (st : SystemState) (content : String)
    (hblob : assocGet (consumerBlobKey ev.id) st.blobs = some content) :
    process_document encode noProcFaults ev st =
      ({ st with
          points := upsertPoint
            ⟨ev.id, encode (extractText content),
             ⟨extractText content, ev.filename, ev.id⟩⟩ st.points,
          documents := updateRow ev.id
            (fun r => { r with processed := true, text_preview := some ((extractText content).take 200) })
            st.documents },
       none) := by
  simp [process_document, hblob, noProcFaults]

/-- A Producer call never turns a row's `processed` flag on. -/
lemma rowProcessed_upload_rev (flt : UploadFaults)
    (doc_id filename content d : String) (st : SystemState)
    (h : rowProcessed d ((upload_document flt doc_id filename content st).1) = true) :
    rowProcessed d st = true := by
  by_cases hb : flt.blobFault
  · simpa [upload_document, hb] using h
  · by_cases hd : flt.dbFault
    · simpa [upload_document, hb, hd, rowProcessed] using h
    · rcases hins : insertRow doc_id filename st.documents with _ | docs
      · simpa [upload_document, hb, hd, hins, rowProcessed] using h
      · rcases hget : assocGet doc_id st.documents with _ | r
        · simp only [insertRow, hget] at hins
          cases hins
          by_cases hdd : doc_id = d
          · subst hdd
            simp [upload_document, hb, hd, insertRow, hget, rowProcessed,
                  assocGet] at h
          · simp only [upload_document, hb, hd, insertRow, hget] at h
            simpa [rowProcessed, assocGet, hdd] using h
        · simp [insertRow, hget] at hins

/-- A Producer call never turns a row's `processed` flag off either. -/
lemma rowProcessed_upload_mono (flt : UploadFaults)
    (doc_id filename content d : String) (st : SystemState)
    (h : rowProcessed d st = true) :
    rowProcessed d ((upload_document flt doc_id filename content st).1) = true := by
  by_cases hb : flt.blobFault
  · simpa [upload_document, hb] using h
  · by_cases hd : flt.dbFault
    · simpa [upload_document, hb, hd, rowProcessed] using h
    · rcases hget : assocGet doc_id st.documents with _ | r
      · by_cases hdd : doc_id = d
        · subst hdd
          simp [rowProcessed, hget] at h
        · simp [upload_document, hb, hd, insertRow, hget, rowProcessed,
                assocGet, hdd]
          simpa [rowProcessed] using h
      · simpa [upload_document, hb, hd, insertRow, hget, rowProcessed] using h

/-- A Consumer run never turns a row's `processed` flag off. -/
lemma rowProcessed_deliver_mono (encode : String → List Rat)
    (flt : ProcFaults) (ev : Event) (d : String) (st : SystemState)
    (h : rowProcessed d st = true) :
    rowProcessed d ((process_document encode flt ev st).1) = true := by
  rcases hblob : assocGet (consumerBlobKey ev.id) st.blobs with _ | content
  · simpa [process_document, hblob] using h
  · by_cases hq : flt.qdrantFault
    · simpa [process_document, hblob, hq] using h
    · by_cases hd : flt.dbFault
      · simpa [process_document, hblob, hq, hd, rowProcessed] using h
      · by_cases hdd : d = ev.id
        · subst hdd
          rcases hget : assocGet ev.id st.documents with _ | r
          · simp [rowProcessed, hget] at h
          · simp [process_document, hblob, hq, hd, rowProcessed,
                  assocGet_updateRow_self, hget]
        · simp only [process_document, hblob, hq, hd] at *
          simpa [rowProcessed, assocGet_updateRow_ne _ _ _ _ hdd] using h

/-- The per-operation monotonicity of `processed`. -/
lemma rowProcessed_execOp_mono (encode : String → List Rat) (op : Op)
    (d : String) (st : SystemState) (h : rowProcessed d st = true) :
    rowProcessed d (execOp encode op st) = true := by
  cases op with
  | upload flt doc_id filename content =>
      exact rowProcessed_upload_mono flt doc_id filename content d st h
  | deliver flt ev => exact rowProcessed_deliver_mono encode flt ev d st h

/-- The Producer never writes to the Vector Index. -/
lemma upload_points_eq (flt : UploadFaults) (doc_id filename content : String)
    (st : SystemState) :
    ((upload_document flt doc_id filename content st).1).points = st.points := by
  by_cases hb : flt.blobFault
  · simp [upload_document, hb]
  · by_cases hd : flt.dbFault
    · simp [upload_document, hb, hd]
    · rcases hins : insertRow doc_id filename st.documents with _ | docs
      · simp [upload_document, hb, hd, hins]
      · simp [upload_document, hb, hd, hins]

/-- A Producer call preserves "every Processed row is indexed". -/
lemma inv_upload (flt : UploadFaults) (doc_id filename content : String)
    (st : SystemState) (h : processedImpliesIndexed st) :
    processedImpliesIndexed ((upload_document flt doc_id filename content st).1) := by
  intro i hi
  have hst : rowProcessed i st = true :=
    rowProcessed_upload_rev flt doc_id filename content i st hi
  have hpt := h i hst
  simpa [hasPoint, upload_points_eq] using hpt

/-- A Consumer run preserves "every Processed row is indexed": the row is
flipped to Processed only in the branch where the upsert has already
happened. -/
lemma inv_deliver (encode : String → List Rat) (flt : ProcFaults) (ev : Event)
    (st : SystemState) (h : processedImpliesIndexed st) :
    processedImpliesIndexed ((process_document encode flt ev st).1) := by
  intro i hi
  rcases hblob : assocGet (consumerBlobKey ev.id) st.blobs with _ | content
  · simp only [process_document, hblob] at hi ⊢
    exact h i hi
  · by_cases hq : flt.qdrantFault
    · simp only [process_document, hblob, hq] at hi ⊢
      simp only [if_true] at hi ⊢
      exact h i hi
    · by_cases hd : flt.dbFault
      · simp only [process_document, hblob, hq, hd, if_false, if_true] at hi ⊢
        have hst : rowProcessed i st = true := by
          simpa [rowProcessed] using hi
        have hpt := h i hst
        simp only [hasPoint] at hpt ⊢
        exact exists_upsert_mono _ _ _ hpt
      · simp only [process_document, hblob, hq, hd, if_false] at hi ⊢
        by_cases hii : i = ev.id
        · subst hii
          simp only [hasPoint]
          exact exists_upsert_self _ _
        · have hst : rowProcessed i st = true := by
            simpa [rowProcessed, assocGet_updateRow_ne _ _ _ _ hii] using hi
          have hpt := h i hst
          simp only [hasPoint] at hpt ⊢
          exact exists_upsert_mono _ _ _ hpt

/-- One operation preserves "every Processed row is indexed". -/
lemma inv_execOp (encode : String → List Rat) (op : Op) (st : SystemState)
    (h : processedImpliesIndexed st) :
    processedImpliesIndexed (execOp encode op st) := by
  cases op with
  | upload flt doc_id filename content =>
      exact inv_upload flt doc_id filename content st h
  | deliver flt ev => exact inv_deliver encode flt ev st h

/-- Any run preserves "every Processed row is indexed". -/
lemma inv_execOps (encode : String → List Rat) (ops : List Op)
    (st : SystemState) (h : processedImpliesIndexed st) :
    processedImpliesIndexed (execOps encode ops st) := by
  induction ops generalizing st with
  | nil => exact h
  | cons op rest ih => exact ih _ (inv_execOp encode op st h)

/-- The empty state satisfies the invariant. -/
lemma inv_initState : processedImpliesIndexed initState := by
  intro i hi
  simp [rowProcessed, initState, assocGet] at hi

/-- C10: the Producer and the Consumer derive the blob key from the id by
the same function, `documents/` ++ id ++ `.pdf` (the `.pdf` suffix is
appended regardless of the original filename), so after an upload the
Consumer's blob fetch uses exactly the key the Producer wrote and finds
the uploaded content. -/
theorem c10_blob_key_agreement (doc_id filename content : String)
    (st : SystemState) :
    producerBlobKey doc_id = consumerBlobKey doc_id
    ∧ consumerBlobKey doc_id = "documents/" ++ doc_id ++ ".pdf"
    ∧ assocGet (consumerBlobKey doc_id)
        ((upload_document noUploadFaults doc_id filename content st).1).blobs
        = some content := by
  refine ⟨rfl, rfl, ?_⟩
  rcases hins : insertRow doc_id filename st.documents with _ | docs
  · simp [upload_document, noUploadFaults, hins, producerBlobKey,
          consumerBlobKey, assocGet_assocSet_self]
  · simp [upload_document, noUploadFaults, hins, producerBlobKey,
          consumerBlobKey, assocGet_assocSet_self]

/-- C3 fails on the code: there is no try/except around the Redis calls in
`search`, so with the Result Cache unreachable the exception from
`redis_client.get` (resp. `redis_client.setex`) propagates to the caller
instead of the Vector Index answer — an unreachable cache is NOT treated
as a cache miss. -/
theorem c3_cache_unreachable_raises :
    search ⟨true, false⟩ 0 "emissions" (fun _ => some []) []
      = .error .cacheUnreachable
    ∧ search ⟨false, true⟩ 0 "emissions" (fun _ => some []) []
      = .error .cacheUnreachable := ⟨rfl, rfl⟩

/-- Concrete pre-state for the C5 failing input: document d1 uploaded
(blob and Pending row present) and its processing event waiting in the
queue. -/
def c5State : SystemState :=
  ⟨[("documents/d1.pdf", "hello")], [("d1", ⟨"a.pdf", false, none⟩)], [],
   [⟨"d1", "a.pdf"⟩], []⟩

/-- C5 fails on the code: on a transient Vector Index fault during step 4
the exception propagates into the plain core-NATS subscription, which has
no ack/nack and never redelivers — the message is consumed (queue empty
afterwards), nothing was written to the index, the row stays Pending, and
the event is lost rather than redelivered. -/
theorem c5_transient_fault_drops_message :
    consumeNext (fun _ => ([] : List Rat)) ⟨true, false⟩ c5State
      = (⟨[("documents/d1.pdf", "hello")], [("d1", ⟨"a.pdf", false, none⟩)],
          [], [], []⟩,
         some .qdrantUnreachable) := by decide

/-- C8: `status` reports all five dependencies, each entry is a function
of that dependency's own probe outcome alone (so one failing probe cannot
abort or alter the others), and a failing probe marks its own dependency
unhealthy. -/
theorem c8_status_probe_isolation (f g : StatusFaults) :
    (status f).map Prod.fst = ["nats", "postgresql", "qdrant", "storage", "cache"]
    ∧ (f.natsConnected = g.natsConnected →
        assocGet "nats" (status f) = assocGet "nats" (status g))
    ∧ (f.pgFault = g.pgFault →
        assocGet "postgresql" (status f) = assocGet "postgresql" (status g))
    ∧ (f.qdrantFault = g.qdrantFault →
        assocGet "qdrant" (status f) = assocGet "qdrant" (status g))
    ∧ (f.s3Fault = g.s3Fault →
        assocGet "storage" (status f) = assocGet "storage" (status g))
    ∧ (f.redisFault = g.redisFault →
        assocGet "cache" (status f) = assocGet "cache" (status g))
    ∧ (f.pgFault = true → assocGet "postgresql" (status f) = some "unhealthy") := by
  refine ⟨by simp [status], ?_, ?_, ?_, ?_, ?_, ?_⟩ <;> intro h <;>
    simp [status, assocGet, h]

/-- Fault configuration used in the C8 witness: PostgreSQL probe failing,
everything else up. -/
def c8f : StatusFaults := ⟨true, true, false, false, false⟩

/-- Second fault configuration used in the C8 witness: all probes up. -/
def c8g : StatusFaults := ⟨true, false, false, false, false⟩

/-- C8 at a concrete pair of fault configurations differing only in the
PostgreSQL probe. -/
theorem c8_status_probe_isolation_witness :
    (status c8f).map Prod.fst = ["nats", "postgresql", "qdrant", "storage", "cache"]
    ∧ assocGet "nats" (status c8f) = assocGet "nats" (status c8g)
    ∧ assocGet "qdrant" (status c8f) = assocGet "qdrant" (status c8g)
    ∧ assocGet "postgresql" (status c8f) = some "unhealthy" := by
  have h := c8_status_probe_isolation c8f c8g
  exact ⟨h.1, h.2.1 rfl, h.2.2.2.1 rfl, h.2.2.2.2.2.2 rfl⟩

/-- C1: delivering the same processing event twice to the fault-free
Consumer is idempotent — the second run reproduces exactly the state of
the first (so the Metadata Store row is identical to what a single
delivery produces), and the Vector Index holds exactly one entry for the
id (the upsert keyed by id leaves no duplicates, last write wins). -/
theorem c1_idempotent_ingestion (encode : String → List Rat) (ev : Event)
    (st : SystemState) (content : String)
    (hblob : assocGet (consumerBlobKey ev.id) st.blobs = some content)
    (hcount : countById ev.id st.points ≤ 1) :
    (process_document encode noProcFaults ev
        ((process_document encode noProcFaults ev st).1)).1
      = (process_document encode noProcFaults ev st).1
    ∧ countById ev.id ((process_document encode noProcFaults ev st).1).points = 1
    ∧ assocGet ev.id
        ((process_document encode noProcFaults ev
            ((process_document encode noProcFaults ev st).1)).1).documents
      = assocGet ev.id ((process_document encode noProcFaults ev st).1).documents := by
  have hstep1 := process_document_success encode ev st content hblob
  have hstep2 := process_document_success encode ev
      { st with
        points := upsertPoint
          ⟨ev.id, encode (extractText content),
           ⟨extractText content, ev.filename, ev.id⟩⟩ st.points,
        documents := updateRow ev.id
          (fun r => { r with processed := true, text_preview := some ((extractText content).take 200) })
          st.documents }
      content hblob
  have hidem : (process_document encode noProcFaults ev
      ((process_document encode noProcFaults ev st).1)).1
      = (process_document encode noProcFaults ev st).1 := by
    simp only [hstep1]
    simp only [hstep2]
    congr 1
    · exact updateRow_idem ev.id
        (fun r => { r with processed := true, text_preview := some ((extractText content).take 200) })
        (fun r => rfl) st.documents
    · exact upsertPoint_idem _ _
  refine ⟨hidem, ?_, by rw [hidem]⟩
  simp only [hstep1]
  exact countById_upsert_of_le
    ⟨ev.id, encode (extractText content),
     ⟨extractText content, ev.filename, ev.id⟩⟩ st.points hcount

/-- C2: a Producer call publishes the queue event only when both the blob
write and the metadata insert have succeeded; a blob-write failure leaves
everything untouched (fail closed), and an insert failure after a
successful blob write surfaces an error with no row and no event, leaving
only the orphan blob. -/
theorem c2_upload_ordering (flt : UploadFaults) (doc_id filename content : String)
    (st st' : SystemState) (res : Except Err UploadResp)
    (h : upload_document flt doc_id filename content st = (st', res)) :
    (st'.queue ≠ st.queue →
      res = .ok ⟨doc_id, "queued"⟩
      ∧ assocGet (producerBlobKey doc_id) st'.blobs = some content
      ∧ assocGet doc_id st'.documents = some ⟨filename, false, none⟩
      ∧ st'.queue = st.queue ++ [⟨doc_id, filename⟩])
    ∧ (flt.blobFault = true → st' = st ∧ res = .error .blobWriteFailed)
    ∧ (flt.blobFault = false → flt.dbFault = true →
        res = .error .dbInsertFailed
        ∧ st'.documents = st.documents
        ∧ st'.queue = st.queue
        ∧ assocGet (producerBlobKey doc_id) st'.blobs = some content) := by
  by_cases hb : flt.blobFault
  · simp only [upload_document, hb, if_true, Prod.mk.injEq] at h
    obtain ⟨h1, h2⟩ := h
    subst h1
    refine ⟨fun hq => absurd rfl hq, fun _ => ⟨rfl, h2.symm⟩, fun hb0 _ => ?_⟩
    rw [hb0] at hb
    cases hb
  · by_cases hd : flt.dbFault
    · simp only [upload_document, hb, hd, if_false, if_true, Bool.false_eq_true,
        Prod.mk.injEq] at h
      obtain ⟨h1, h2⟩ := h
      subst h1
      refine ⟨fun hq => absurd rfl hq, fun hbt => ?_, fun _ _ => ?_⟩
      · rw [hbt] at hb
        cases hb rfl
      · exact ⟨h2.symm, rfl, rfl, assocGet_assocSet_self _ _ _⟩
    · rcases hget : assocGet doc_id st.documents with _ | r
      · simp only [upload_document, hb, hd, insertRow, hget, if_false,
          Bool.false_eq_true, Prod.mk.injEq] at h
        obtain ⟨h1, h2⟩ := h
        subst h1
        refine ⟨fun _ => ⟨h2.symm, assocGet_assocSet_self _ _ _, ?_, rfl⟩,
                fun hbt => ?_, fun _ hdt => ?_⟩
        · simp [assocGet]
        · rw [hbt] at hb
          cases hb rfl
        · rw [hdt] at hd
          cases hd rfl
      · simp only [upload_document, hb, hd, insertRow, hget, if_false,
          Bool.false_eq_true, Prod.mk.injEq] at h
        obtain ⟨h1, h2⟩ := h
        subst h1
        refine ⟨fun hq => absurd rfl hq, fun hbt => ?_, fun _ hdt => ?_⟩
        · rw [hbt] at hb
          cases hb rfl
        · rw [hdt] at hd
          cases hd rfl

/-- The state a fault-free upload of d1 produces from the empty state. -/
def c2Final : SystemState :=
  ⟨[("documents/d1.pdf", "hello")], [("d1", ⟨"a.pdf", false, none⟩)], [],
   [⟨"d1", "a.pdf"⟩], []⟩

/-- C2 at a concrete fault-free upload: the event was published, and
indeed both the blob and the Pending row exist. -/
theorem c2_upload_ordering_witness :
    upload_document noUploadFaults "d1" "a.pdf" "hello" initState
      = (c2Final, .ok ⟨"d1", "queued"⟩)
    ∧ (assocGet (producerBlobKey "d1") c2Final.blobs = some "hello"
       ∧ assocGet "d1" c2Final.documents = some ⟨"a.pdf", false, none⟩
       ∧ c2Final.queue = initState.queue ++ [⟨"d1", "a.pdf"⟩]) := by
  have heq : upload_document noUploadFaults "d1" "a.pdf" "hello" initState
      = (c2Final, .ok ⟨"d1", "queued"⟩) := rfl
  have h := (c2_upload_ordering noUploadFaults "d1" "a.pdf" "hello" initState
      c2Final (.ok ⟨"d1", "queued"⟩) heq).1 (by decide)
  exact ⟨heq, h.2⟩

/-- C1 at a concrete input: document d1 uploaded, the event processed
twice. -/
theorem c1_idempotent_ingestion_witness :
    (process_document (fun t => [(t.length : Rat)]) noProcFaults ⟨"d1", "a.pdf"⟩
        ((process_document (fun t => [(t.length : Rat)]) noProcFaults
            ⟨"d1", "a.pdf"⟩ c2Final).1)).1
      = (process_document (fun t => [(t.length : Rat)]) noProcFaults
          ⟨"d1", "a.pdf"⟩ c2Final).1
    ∧ countById "d1" ((process_document (fun t => [(t.length : Rat)]) noProcFaults
        ⟨"d1", "a.pdf"⟩ c2Final).1).points = 1 := by
  have h := c1_idempotent_ingestion (fun t => [(t.length : Rat)])
      ⟨"d1", "a.pdf"⟩ c2Final "hello" (by decide) (by decide)
  exact ⟨h.1, h.2.1⟩

/-- C4: `processing_state` starts Pending on a successful upload, is
monotone (never Processed back to Pending) under every operation, is never
turned on by the Producer, and in every reachable state a Processed row
has its vector in the index (so the Consumer flips it only after the
embedding write). -/
theorem c4_processing_state_monotone (encode : String → List Rat)
    (ops : List Op) (op : Op) (flt : UploadFaults)
    (doc_id filename content d : String) (st : SystemState) :
    ((upload_document flt doc_id filename content st).2 = .ok ⟨doc_id, "queued"⟩ →
      assocGet doc_id ((upload_document flt doc_id filename content st).1).documents
        = some ⟨filename, false, none⟩)
    ∧ (rowProcessed d st = true → rowProcessed d (execOp encode op st) = true)
    ∧ (rowProcessed d ((upload_document flt doc_id filename content st).1) = true →
        rowProcessed d st = true)
    ∧ processedImpliesIndexed (execOps encode ops initState) := by
  refine ⟨?_, rowProcessed_execOp_mono encode op d st,
          rowProcessed_upload_rev flt doc_id filename content d st,
          inv_execOps encode ops initState inv_initState⟩
  intro hok
  by_cases hb : flt.blobFault
  · simp [upload_document, hb] at hok
  · by_cases hd : flt.dbFault
    · simp [upload_document, hb, hd] at hok
    · rcases hget : assocGet doc_id st.documents with _ | r
      · simp [upload_document, hb, hd, insertRow, hget, assocGet]
      · simp [upload_document, hb, hd, insertRow, hget] at hok

/-- State used in the C4 witness: document d0 already processed and
indexed. -/
def c4State : SystemState :=
  ⟨[("documents/d0.pdf", "x")], [("d0", ⟨"b.pdf", true, some "x"⟩)],
   [⟨"d0", [], ⟨"x", "b.pdf", "d0"⟩⟩], [], []⟩

/-- Operation sequence used in the C4 witness: upload d1, then process its
event. -/
def c4Ops : List Op :=
  [.upload noUploadFaults "d1" "a.pdf" "hello",
   .deliver noProcFaults ⟨"d1", "a.pdf"⟩]

/-- C4 at concrete inputs. -/
theorem c4_processing_state_monotone_witness :
    assocGet "d1" ((upload_document noUploadFaults "d1" "a.pdf" "hello"
        c4State).1).documents = some ⟨"a.pdf", false, none⟩
    ∧ rowProcessed "d0" (execOp (fun _ => ([] : List Rat))
        (.deliver noProcFaults ⟨"d1", "a.pdf"⟩) c4State) = true
    ∧ rowProcessed "d0" c4State = true
    ∧ processedImpliesIndexed (execOps (fun _ => ([] : List Rat)) c4Ops initState) := by
  have h := c4_processing_state_monotone (fun _ => ([] : List Rat)) c4Ops
      (.deliver noProcFaults ⟨"d1", "a.pdf"⟩) noUploadFaults "d1" "a.pdf" "hello"
      "d0" c4State
  exact ⟨h.1 rfl, h.2.1 (by decide), h.2.2.1 (by decide), h.2.2.2⟩

/-- C6: on a cache hit `search` returns the cached SearchResult unchanged
without contacting the Vector Index (`indexRequest = none`), and any
successful search makes a second search for the same query within the TTL
of the cached entry return the identical SearchResult, again without
contacting the index. -/
theorem c6_cache_hit_returns_cached (t t' : Nat) (query : String)
    (resp resp' : KnnRequest → Option (List Hit))
    (cache : List (String × CacheEntry)) (r : SearchResult)
    (o : SearchOutcome) (e : CacheEntry) :
    (cacheGet t (cacheKey query) cache = some r →
      search noCacheFaults t query resp cache = .ok ⟨r, cache, none⟩)
    ∧ (search noCacheFaults t query resp cache = .ok o →
        assocGet (cacheKey query) o.newCache = some e →
        t' < e.expiry →
        e.value = o.result
        ∧ search noCacheFaults t' query resp' o.newCache
            = .ok ⟨o.result, o.newCache, none⟩) := by
  constructor
  · intro hhit
    simp [search, noCacheFaults, hhit]
  · intro hok hget ht'
    rcases hc : cacheGet t (cacheKey query) cache with _ | c
    · simp only [search, noCacheFaults, hc, Bool.false_eq_true, if_false,
        Except.ok.injEq] at hok
      subst hok
      simp only [assocGet_assocSet_self, Option.some.injEq] at hget
      subst hget
      refine ⟨rfl, ?_⟩
      simp [search, noCacheFaults, cacheGet, assocGet_assocSet_self, ht']
    · simp only [search, noCacheFaults, hc, Bool.false_eq_true, if_false,
        Except.ok.injEq] at hok
      subst hok
      rcases hg : assocGet (cacheKey query) cache with _ | e₀
      · simp [cacheGet, hg] at hc
      · simp only [cacheGet, hg] at hc
        by_cases hte : t < e₀.expiry
        · simp only [hte, if_true, Option.some.injEq] at hc
          simp only [hg, Option.some.injEq] at hget
          subst hget
          refine ⟨hc, ?_⟩
          simp [search, noCacheFaults, cacheGet, hg, ht', hc]
        · simp [hte] at hc

/-- Result Cache used in the C6 witness: query q cached until time 100. -/
def c6Cache : List (String × CacheEntry) := [("search:q", ⟨⟨"q", []⟩, 100⟩)]

/-- C6 at concrete inputs: hits at times 0 and 50 both return the cached
value without touching the index. -/
theorem c6_cache_hit_returns_cached_witness :
    search noCacheFaults 0 "q" (fun _ => some []) c6Cache
      = .ok ⟨⟨"q", []⟩, c6Cache, none⟩
    ∧ search noCacheFaults 50 "q" (fun _ => none) c6Cache
      = .ok ⟨⟨"q", []⟩, c6Cache, none⟩ := by
  have h := c6_cache_hit_returns_cached 0 50 "q" (fun _ => some [])
      (fun _ => none) c6Cache ⟨"q", []⟩ ⟨⟨"q", []⟩, c6Cache, none⟩
      ⟨⟨"q", []⟩, 100⟩
  exact ⟨h.1 (by decide), (h.2 (h.1 (by decide)) (by decide) (by decide)).2⟩

/-- C7 as stated is false on one detail: the Result Cache key is not the
verbatim query string but `search:` ++ query (main.py line 104) — after a
miss for "emissions" the entry sits under "search:emissions" and a lookup
under "emissions" itself finds nothing. -/
theorem c7_verbatim_key_counterexample :
    search noCacheFaults 0 "emissions" (fun _ => some []) []
      = .ok ⟨⟨"emissions", []⟩,
             [("search:emissions", ⟨⟨"emissions", []⟩, 300⟩)],
             some ⟨dummyVector, 3, true⟩⟩
    ∧ assocGet "emissions"
        [("search:emissions", (⟨⟨"emissions", []⟩, 300⟩ : CacheEntry))] = none :=
  ⟨rfl, rfl⟩

/-- C7 amended: on a cache miss, `search` issues one nearest-neighbor
request with the constant placeholder vector (not an embedding of the
query) and fixed limit 3, builds the SearchResult from the query and the
returned hits, stores it under the key `search:` ++ the verbatim query
with expiry t + 300, and returns it. -/
theorem c7_cache_miss_behavior (t : Nat) (query : String)
    (resp : KnnRequest → Option (List Hit))
    (cache : List (String × CacheEntry))
    (hmiss : cacheGet t (cacheKey query) cache = none) :
    search noCacheFaults t query resp cache
      = .ok ⟨⟨query, (resp ⟨dummyVector, 3, true⟩).getD []⟩,
             assocSet ("search:" ++ query)
               ⟨⟨query, (resp ⟨dummyVector, 3, true⟩).getD []⟩, t + 300⟩ cache,
             some ⟨dummyVector, 3, true⟩⟩ := by
  simp only [search, noCacheFaults, hmiss]
  rfl

/-- C7 amended, at a concrete miss. -/
theorem c7_cache_miss_behavior_witness :
    search noCacheFaults 0 "emissions" (fun _ => some [⟨"d1", 1, none⟩]) []
      = .ok ⟨⟨"emissions", [⟨"d1", 1, none⟩]⟩,
             [("search:emissions", ⟨⟨"emissions", [⟨"d1", 1, none⟩]⟩, 300⟩)],
             some ⟨dummyVector, 3, true⟩⟩ := by
  exact c7_cache_miss_behavior 0 "emissions" (fun _ => some [⟨"d1", 1, none⟩])
    [] (by decide)

/-- C9: on a miss where the Vector Index response body has no `result`
field, `search` returns the empty SearchResult, caches it for the full
300-unit TTL, and every search for the same query within that TTL gets
the cached empty result back without the index being retried
(`indexRequest = none`), whatever the index would answer now. -/
theorem c9_missing_result_field_cached (t t' : Nat) (query : String)
    (resp resp' : KnnRequest → Option (List Hit))
    (cache : List (String × CacheEntry))
    (hmiss : cacheGet t (cacheKey query) cache = none)
    (hresp : resp ⟨dummyVector, 3, true⟩ = none)
    (ht' : t' < t + 300) :
    search noCacheFaults t query resp cache
      = .ok ⟨⟨query, []⟩,
             assocSet (cacheKey query) ⟨⟨query, []⟩, t + 300⟩ cache,
             some ⟨dummyVector, 3, true⟩⟩
    ∧ search noCacheFaults t' query resp'
        (assocSet (cacheKey query) ⟨⟨query, []⟩, t + 300⟩ cache)
      = .ok ⟨⟨query, []⟩,
             assocSet (cacheKey query) ⟨⟨query, []⟩, t + 300⟩ cache,
             none⟩ := by
  constructor
  · simp [search, noCacheFaults, hmiss, hresp]
  · simp [search, noCacheFaults, cacheGet, assocGet_assocSet_self, ht']

/-- C9 at concrete inputs: index answers nothing at time 0, the cached
empty result is served at time 100. -/
theorem c9_missing_result_field_cached_witness :
    search noCacheFaults 0 "emissions" (fun _ => none) []
      = .ok ⟨⟨"emissions", []⟩,
             [("search:emissions", ⟨⟨"emissions", []⟩, 300⟩)],
             some ⟨dummyVector, 3, true⟩⟩
    ∧ search noCacheFaults 100 "emissions" (fun _ => some [⟨"d1", 1, none⟩])
        [("search:emissions", ⟨⟨"emissions", []⟩, 300⟩)]
      = .ok ⟨⟨"emissions", []⟩,
             [("search:emissions", ⟨⟨"emissions", []⟩, 300⟩)],
             none⟩ := by
  exact c9_missing_result_field_cached 0 100 "emissions" (fun _ => none)
    (fun _ => some [⟨"d1", 1, none⟩]) [] (by decide) rfl (by decide)

end RagStarter
